import Mathlib

/-!
# Verification of the core-isa `#define` extraction tool

Shallow embedding of `src/main.rs`: the chip enumeration, the typed value
model, the `#define` line parser (`parse_defines`), the ESP32
`XCHAL_USE_MEMCTL` corrector (`fix_esp32_xchal_use_memctl`) and the
per-chip main loop.  File I/O (reading a chip's `core-isa.h`) is
abstracted as a line provider `Chip → Except Unit (List String)`,
matching the program's text-source boundary; everything else follows the
Rust source line by line.
-/

set_option maxRecDepth 4000

namespace CoreIsa

/-- The four supported chips, in declaration order (`Chip::iter()` order). -/
inductive Chip where
  | Esp32
  | Esp32s2
  | Esp32s3
  | Esp8266
deriving DecidableEq, Repr

/-- `Chip::iter()` yields the variants in declaration order. -/
def chipIter : List Chip := [.Esp32, .Esp32s2, .Esp32s3, .Esp8266]

/-- The seven interrupt-type tokens (`enum InterruptType`). -/
inductive InterruptType where
  | ExternEdge
  | ExternLevel
  | Nmi
  | Profiling
  | Software
  | Timer
  | TimerUnconfigured
deriving DecidableEq, Repr

/-- `InterruptType::from_str`: exact match against the seven strum
`serialize` strings, in declaration order. -/
def interruptFromStr (s : String) : Option InterruptType :=
  if s = "XTHAL_INTTYPE_EXTERN_EDGE" then some .ExternEdge
  else if s = "XTHAL_INTTYPE_EXTERN_LEVEL" then some .ExternLevel
  else if s = "XTHAL_INTTYPE_NMI" then some .Nmi
  else if s = "XTHAL_INTTYPE_PROFILING" then some .Profiling
  else if s = "XTHAL_INTTYPE_SOFTWARE" then some .Software
  else if s = "XTHAL_INTTYPE_TIMER" then some .Timer
  else if s = "XTHAL_TIMER_UNCONFIGURED" then some .TimerUnconfigured
  else none

/-- `enum Value`: integers are `i64` (modelled as `Int`; every value the
program constructs is range-checked at parse time). -/
inductive Value where
  | Integer (n : Int)
  | Interrupt (t : InterruptType)
  | String (s : String)
deriving DecidableEq, Repr

/-- Rust digit value for radix 10 (`char::to_digit(10)`). -/
def decDigit (c : Char) : Option Nat :=
  if c.isDigit then some (c.toNat - 48) else none

/-- Rust digit value for radix 16 (`char::to_digit(16)`). -/
def hexDigit (c : Char) : Option Nat :=
  if c.isDigit then some (c.toNat - 48)
  else if 'a' ≤ c ∧ c ≤ 'f' then some (c.toNat - 87)
  else if 'A' ≤ c ∧ c ≤ 'F' then some (c.toNat - 55)
  else none

/-- Accumulate the value of a digit string; `none` if any character is not
a digit of the radix. -/
def digitsValAux (dig : Char → Option Nat) (radix : Nat) : Nat → List Char → Option Nat
  | acc, [] => some acc
  | acc, c :: cs =>
    match dig c with
    | some d => digitsValAux dig radix (acc * radix + d) cs
    | none => none

/-- The `i64` range check applied by Rust's checked parsing: a magnitude
`n` with sign `neg` yields a value iff it fits in `i64`. -/
def finishParse (neg : Bool) (r : Option Nat) : Option Int :=
  match r with
  | none => none
  | some n =>
    if neg then (if n ≤ 2 ^ 63 then some (-(n : Int)) else none)
    else (if n < 2 ^ 63 then some ((n : Int)) else none)

/-- Rust's `i64` string parsing at a given radix (`str::parse::<i64>` for
radix 10, `i64::from_str_radix` for radix 16): optional sign, then one or
more digits, failing on overflow. -/
def parseSigned (dig : Char → Option Nat) (radix : Nat) : List Char → Option Int
  | [] => none
  | c :: cs =>
    if c = '-' then (if cs.isEmpty then none else finishParse true (digitsValAux dig radix 0 cs))
    else if c = '+' then (if cs.isEmpty then none else finishParse false (digitsValAux dig radix 0 cs))
    else finishParse false (digitsValAux dig radix 0 (c :: cs))

/-- `value.parse::<i64>()`. -/
def parseI64Dec (s : String) : Option Int := parseSigned decDigit 10 s.data

/-- `i64::from_str_radix(s, 16)`. -/
def i64FromStrRadix16 (s : String) : Option Int := parseSigned hexDigit 16 s.data

/-- `str::replace("0x", "")`: delete every (left-to-right, non-overlapping)
occurrence of the two-character substring `0x`. -/
def remove0x : List Char → List Char
  | '0' :: 'x' :: rest => remove0x rest
  | c :: rest => c :: remove0x rest
  | [] => []

/-- Regex `\s` (restricted to the ASCII whitespace the headers contain). -/
def isWsChar (c : Char) : Bool :=
  c = ' ' || c = '\t' || c = '\n' || c = '\r' || c = '\x0b' || c = '\x0c'

/-- Regex class `[a-zA-Z\d_]`. -/
def isWordChar (c : Char) : Bool :=
  c.isAlpha || c.isDigit || c = '_'

/-- `re_ident` (`^[a-zA-Z\d_]+$`): full-string match. -/
def isIdentChars (cs : List Char) : Bool :=
  !cs.isEmpty && cs.all isWordChar

/-- Helper for `re_string`: after an opening quote, a nonempty run of
non-quote characters followed by a closing quote. -/
def quoteAfter (cs : List Char) : Bool :=
  !(cs.takeWhile (fun c => c ≠ '"')).isEmpty && !(cs.dropWhile (fun c => c ≠ '"')).isEmpty

/-- `re_string.is_match` (`"([^"]+)"`, unanchored): some position starts a
quoted nonempty run. -/
def quoteRun : List Char → Bool
  | [] => false
  | c :: cs => (c = '"' && quoteAfter cs) || quoteRun cs

/-- `re_string.is_match(&value)`. -/
def hasQuotedMatch (s : String) : Bool := quoteRun s.data

/-- Does `p` occur at the start of `cs`? (`str::starts_with`). -/
def charsLeadWith : List Char → List Char → Bool
  | [], _ => true
  | _ :: _, [] => false
  | p :: ps, c :: cs => p = c && charsLeadWith ps cs

/-- `re_define` (`^#define[\s]+([a-zA-Z\d_]+)[\s]+([^\s]+)`): on success,
the identifier and value-text captures.  The character classes of adjacent
regex atoms are disjoint, so greedy maximal-munch scanning is exact. -/
def splitDefine (line : List Char) : Option (List Char × List Char) :=
  if charsLeadWith "#define".data line then
    let r0 := line.drop 7
    if (r0.takeWhile isWsChar).isEmpty then none
    else
      let r1 := r0.dropWhile isWsChar
      let ident := r1.takeWhile isWordChar
      if ident.isEmpty then none
      else
        let r2 := r1.dropWhile isWordChar
        if (r2.takeWhile isWsChar).isEmpty then none
        else
          let r3 := r2.dropWhile isWsChar
          let value := r3.takeWhile (fun c => !isWsChar c)
          if value.isEmpty then none else some (ident, value)
  else none

/-- The symbol table (`HashMap<String, Value>`), refined as an association
list with at most one entry per key; all access is keyed, so the
representation order is unobservable. -/
def lookupTbl : List (String × Value) → String → Option Value
  | [], _ => none
  | (k, v) :: rest, key => if k = key then some v else lookupTbl rest key

/-- `HashMap::insert`: overwrite the existing entry or add a new one (all
observation is keyed, so entry order is free; we keep first-insertion
order). -/
def insertAssoc : List (String × Value) → String → Value → List (String × Value)
  | [], k, v => [(k, v)]
  | (a, b) :: m, k, v => if a = k then (k, v) :: m else (a, b) :: insertAssoc m k v

/-- The diagnostics the loop prints. -/
inductive Diag where
  | defineNotMatched (line : String)
  | unableToProcess (ident : String) (value : String)
deriving DecidableEq, Repr

/-- The classification of one value text, in the program's branch order. -/
inductive Classified where
  | resolved (v : Value)
  | unrecognized
deriving DecidableEq, Repr

/-- The `if let` chain of `parse_defines` classifying one value text
against the table built so far: decimal `i64`, then hex after deleting
`0x`, then interrupt token, then quoted string, then known identifier. -/
def classifyValue (m : List (String × Value)) (value : String) : Classified :=
  match parseI64Dec value with
  | some n => .resolved (.Integer n)
  | none =>
    match i64FromStrRadix16 (String.mk (remove0x value.data)) with
    | some n => .resolved (.Integer n)
    | none =>
      match interruptFromStr value with
      | some t => .resolved (.Interrupt t)
      | none =>
        if hasQuotedMatch value then
          .resolved (.String (String.mk (value.data.filter fun c => c ≠ '"')))
        else if isIdentChars value.data then
          match lookupTbl m value with
          | some v => .resolved v
          | none => .unrecognized
        else .unrecognized

/-- Parser state: the table plus the diagnostics printed so far. -/
structure ParseState where
  map : List (String × Value)
  diags : List Diag
deriving DecidableEq, Repr

/-- The body of the `parse_defines` loop after the define regex matched:
classify the value text and either insert, or (conditionally) print the
`Unable to process definition` diagnostic and skip. -/
def processDefine (chip : Chip) (st : ParseState) (ident value : String) : ParseState :=
  match classifyValue st.map value with
  | .resolved v => { st with map := insertAssoc st.map ident v }
  | .unrecognized =>
    if chip ≠ .Esp32 ∧ ident ≠ "XCHAL_USE_MEMCTL" then
      { st with diags := st.diags ++ [.unableToProcess ident value] }
    else st

/-- One iteration of the `parse_defines` loop on a raw line. -/
def processLine (chip : Chip) (st : ParseState) (line : String) : ParseState :=
  match splitDefine line.data with
  | none => { st with diags := st.diags ++ [.defineNotMatched line] }
  | some (ident, value) => processDefine chip st (String.mk ident) (String.mk value)

/-- `parse_defines`, with `find_all_defines`'s file read abstracted into
the given line list (its `starts_with("#define")` filter retained). -/
def parseDefines (chip : Chip) (lines : List String) : ParseState :=
  (lines.filter fun l => charsLeadWith "#define".data l.data).foldl (processLine chip) ⟨[], []⟩

/-- `fix_esp32_xchal_use_memctl`.  The Rust body unwraps each lookup and
the `as_integer` cast, panicking when a key is missing or non-integer;
`none` models that panic. -/
def fixEsp32XchalUseMemctl (m : List (String × Value)) : Option (List (String × Value)) :=
  match lookupTbl m "XCHAL_LOOP_BUFFER_SIZE" with
  | some (.Integer loop_buffer_size) =>
    match lookupTbl m "XCHAL_DCACHE_IS_COHERENT" with
    | some (.Integer dcache_is_coherent) =>
      match lookupTbl m "XCHAL_HAVE_ICACHE_DYN_WAYS" with
      | some (.Integer have_icache_dyn_ways) =>
        match lookupTbl m "XCHAL_HAVE_DCACHE_DYN_WAYS" with
        | some (.Integer have_dcache_dyn_ways) =>
          let use_memctl : Int :=
            if loop_buffer_size > 0 ∨ dcache_is_coherent ≠ 0
                ∨ have_icache_dyn_ways ≠ 0 ∨ have_dcache_dyn_ways ≠ 0
            then 1 else 0
          some (insertAssoc m "XCHAL_USE_MEMCTL" (.Integer use_memctl))
        | _ => none
      | _ => none
    | _ => none
  | _ => none

/-- Errors that abort the `main` loop: a text-source (`?`-propagated I/O)
failure, or the corrector's panic. -/
inductive RunError where
  | ioError (chip : Chip)
  | panicMissing (chip : Chip)
deriving DecidableEq, Repr

/-- One iteration of `main`'s loop for one chip: read the lines (`?` on
failure), parse, and for the ESP32 run the corrector (panic modelled as an
error). -/
def runChip (g : Chip → Except Unit (List String)) (chip : Chip) :
    Except RunError (List (String × Value)) :=
  match g chip with
  | .error _ => .error (.ioError chip)
  | .ok lines =>
    let st := parseDefines chip lines
    if chip = .Esp32 then
      match fixEsp32XchalUseMemctl st.map with
      | some m => .ok m
      | none => .error (.panicMissing chip)
    else .ok st.map

/-- `main`'s `for` loop over a chip list: both `?` and a panic abort the
loop (and the program), so the first failure ends processing.  Returns the
successfully produced tables in order, and the aborting error if any. -/
def mainLoop (g : Chip → Except Unit (List String)) :
    List Chip → List (Chip × List (String × Value)) × Option RunError
  | [] => ([], none)
  | c :: cs =>
    match runChip g c with
    | .error e => ([], some e)
    | .ok m =>
      let r := mainLoop g cs
      ((c, m) :: r.1, r.2)

/-- `main`: the loop over `Chip::iter()`. -/
def mainModel (g : Chip → Except Unit (List String)) :
    List (Chip × List (String × Value)) × Option RunError :=
  mainLoop g chipIter

/-- The table a chip's run produces (junk when the run fails). -/
def chipTable (g : Chip → Except Unit (List String)) (c : Chip) : List (String × Value) :=
  match runChip g c with
  | .ok m => m
  | .error _ => []

/-- A text source whose ESP32 header lacks the corrector's four inputs,
while every other chip's header reads fine. -/
def linesProviderMissingInputs : Chip → Except Unit (List String)
  | .Esp32 => .ok ["#define FOO 1"]
  | _ => .ok []

/-- A text source whose ESP32 header fails to read, while every other
chip's header reads fine. -/
def linesProviderIoFailure : Chip → Except Unit (List String)
  | .Esp32 => .error ()
  | _ => .ok []

end CoreIsa

namespace CoreIsa

/-! ### Helper lemmas -/

theorem data_mk (cs : List Char) : (String.mk cs).data = cs := rfl

theorem decDigit_isDigit {c : Char} (h : (decDigit c).isSome) : c.isDigit := by
  by_contra hc
  simp [decDigit, hc] at h

theorem isDigit_ne {c : Char} (h : c.isDigit) :
    c ≠ 'x' ∧ c ≠ '-' ∧ c ≠ '+' ∧ c ≠ '"' ∧ c ≠ 'X' := by
  refine ⟨?_, ?_, ?_, ?_, ?_⟩ <;> (rintro rfl; revert h; decide)

theorem hexDigit_ne {c : Char} (h : (hexDigit c).isSome) :
    c ≠ '-' ∧ c ≠ '+' ∧ c ≠ 'x' := by
  refine ⟨?_, ?_, ?_⟩ <;> (rintro rfl; revert h; decide)

theorem hexDigit_eq_decDigit {c : Char} (h : c.isDigit) : hexDigit c = decDigit c := by
  simp [hexDigit, decDigit, h]

theorem isWordChar_of_isDigit {c : Char} (h : c.isDigit) : isWordChar c := by
  simp [isWordChar, h]

theorem remove0x_eq_self : ∀ (cs : List Char), (∀ c ∈ cs, c ≠ 'x') → remove0x cs = cs := by
  intro cs h
  induction cs using remove0x.induct with
  | case1 rest _ => exact absurd rfl (h 'x' (by simp))
  | case2 c rest hne ih =>
    simp only [remove0x]
    rw [ih (fun c' hm => h c' (List.mem_cons_of_mem c hm))]
  | case3 => rfl

theorem quoteRun_eq_false : ∀ (cs : List Char), (∀ c ∈ cs, c ≠ '"') → quoteRun cs = false := by
  intro cs h
  induction cs with
  | nil => rfl
  | cons c cs ih =>
    have hc : c ≠ '"' := h c (by simp)
    simp [quoteRun, hc, ih (fun c' hm => h c' (by simp [hm]))]

theorem interruptFromStr_none_of_noX (cs : List Char) (h : 'X' ∉ cs) :
    interruptFromStr (String.mk cs) = none := by
  have key : ∀ t : String, 'X' ∈ t.data → ¬(String.mk cs = t) := by
    intro t ht heq
    apply h
    have hcs : cs = t.data := by rw [← heq]
    rw [hcs]; exact ht
  unfold interruptFromStr
  rw [if_neg (key _ (by decide)), if_neg (key _ (by decide)), if_neg (key _ (by decide)),
    if_neg (key _ (by decide)), if_neg (key _ (by decide)), if_neg (key _ (by decide)),
    if_neg (key _ (by decide))]

theorem lookupTbl_cons (a : String) (b : Value) (m : List (String × Value)) (key : String) :
    lookupTbl ((a, b) :: m) key = if a = key then some b else lookupTbl m key := rfl

theorem lookupTbl_insertAssoc_ne :
    ∀ (m : List (String × Value)) (k k' : String) (v : Value), k' ≠ k →
      lookupTbl (insertAssoc m k v) k' = lookupTbl m k'
  | [], k, k', v, h => by
    simp only [insertAssoc, lookupTbl_cons, lookupTbl]
    rw [if_neg (fun hh : k = k' => h hh.symm)]
  | (a, b) :: m, k, k', v, h => by
    by_cases hak : a = k
    · simp only [insertAssoc, if_pos hak, lookupTbl_cons]
      rw [if_neg (fun hh : k = k' => h hh.symm), if_neg (fun hh : a = k' => h (hh.symm.trans hak))]
    · simp only [insertAssoc, if_neg hak, lookupTbl_cons,
        lookupTbl_insertAssoc_ne m k k' v h]

theorem digitsValAux_dec_le_hex :
    ∀ (ds : List Char) (a b : Nat), a ≤ b → (∀ c ∈ ds, (decDigit c).isSome) →
      ∃ va vb, digitsValAux decDigit 10 a ds = some va ∧
        digitsValAux hexDigit 16 b ds = some vb ∧ va ≤ vb := by
  intro ds
  induction ds with
  | nil => exact fun a b hab _ => ⟨a, b, rfl, rfl, hab⟩
  | cons c cs ih =>
    intro a b hab h
    have hs : (decDigit c).isSome := h c (by simp)
    obtain ⟨d, hd⟩ := Option.isSome_iff_exists.mp hs
    have hdig : c.isDigit := decDigit_isDigit hs
    have hhex : hexDigit c = some d := by rw [hexDigit_eq_decDigit hdig, hd]
    have hstep : a * 10 + d ≤ b * 16 + d := by
      have h1 : a * 10 ≤ b * 10 := Nat.mul_le_mul_right 10 hab
      have h2 : b * 10 ≤ b * 16 := Nat.mul_le_mul_left b (by norm_num)
      omega
    obtain ⟨va, vb, h1, h2, h3⟩ :=
      ih (a * 10 + d) (b * 16 + d) hstep (fun c' hm => h c' (by simp [hm]))
    exact ⟨va, vb, by simp [digitsValAux, hd, h1], by simp [digitsValAux, hhex, h2], h3⟩

theorem parseSigned_head_nonsign (dig : Char → Option Nat) (radix : Nat) (c : Char)
    (cs : List Char) (h1 : c ≠ '-') (h2 : c ≠ '+') :
    parseSigned dig radix (c :: cs) = finishParse false (digitsValAux dig radix 0 (c :: cs)) := by
  simp [parseSigned, h1, h2]

theorem fix_none_of_missing (m : List (String × Value))
    (h : lookupTbl m "XCHAL_LOOP_BUFFER_SIZE" = none
      ∨ lookupTbl m "XCHAL_DCACHE_IS_COHERENT" = none
      ∨ lookupTbl m "XCHAL_HAVE_ICACHE_DYN_WAYS" = none
      ∨ lookupTbl m "XCHAL_HAVE_DCACHE_DYN_WAYS" = none) :
    fixEsp32XchalUseMemctl m = none := by
  unfold fixEsp32XchalUseMemctl
  rcases h with h | h | h | h
  · rw [h]
  all_goals {
    rw [h]
    cases h1 : lookupTbl m "XCHAL_LOOP_BUFFER_SIZE" with
    | none => rfl
    | some v1 =>
      cases v1 with
      | Integer a =>
        cases h2 : lookupTbl m "XCHAL_DCACHE_IS_COHERENT" with
        | none => rfl
        | some v2 =>
          cases v2 with
          | Integer b =>
            cases h3 : lookupTbl m "XCHAL_HAVE_ICACHE_DYN_WAYS" with
            | none => rfl
            | some v3 =>
              cases v3 with
              | Integer c => rfl
              | Interrupt t => rfl
              | String s => rfl
          | Interrupt t => rfl
          | String s => rfl
      | Interrupt t => rfl
      | String s => rfl
  }

end CoreIsa

namespace CoreIsa

theorem parseI64Dec_mk (cs : List Char) :
    parseI64Dec (String.mk cs) = parseSigned decDigit 10 cs := rfl

theorem i64FromStrRadix16_mk (cs : List Char) :
    i64FromStrRadix16 (String.mk cs) = parseSigned hexDigit 16 cs := rfl

/-- A decimal parse of a string beginning `0x…` always fails: `x` is not a
decimal digit. -/
theorem parseI64Dec_0x (ds : List Char) : parseI64Dec (String.mk ('0' :: 'x' :: ds)) = none := rfl

/-- A pure decimal digit string whose value does not fit in `i64` falls
all the way through the classification chain, provided the digit string is
not itself a key of the table. -/
theorem classify_overflow (m : List (String × Value)) (ds : List Char) (v : Nat)
    (h1 : ds ≠ []) (h2 : ∀ c ∈ ds, (decDigit c).isSome)
    (h3 : digitsValAux decDigit 10 0 ds = some v) (h4 : 2 ^ 63 ≤ v)
    (h5 : lookupTbl m (String.mk ds) = none) :
    classifyValue m (String.mk ds) = .unrecognized := by
  obtain ⟨c, cs, rfl⟩ := List.exists_cons_of_ne_nil h1
  have hall : ∀ c' ∈ c :: cs, c'.isDigit := fun c' hm => decDigit_isDigit (h2 c' hm)
  have hne := isDigit_ne (hall c (by simp))
  have hdec : parseI64Dec (String.mk (c :: cs)) = none := by
    rw [parseI64Dec_mk, parseSigned_head_nonsign decDigit 10 c cs hne.2.1 hne.2.2.1, h3]
    simp only [finishParse]
    rw [if_neg (show ¬(v < 2 ^ 63) by omega)]
    rfl
  have hrm : remove0x (c :: cs) = c :: cs :=
    remove0x_eq_self _ (fun c' hm => (isDigit_ne (hall c' hm)).1)
  obtain ⟨va, vb, hva, hvb, hle⟩ := digitsValAux_dec_le_hex (c :: cs) 0 0 le_rfl h2
  rw [h3] at hva
  injection hva with hva
  have hhex : i64FromStrRadix16 (String.mk (c :: cs)) = none := by
    rw [i64FromStrRadix16_mk, parseSigned_head_nonsign hexDigit 16 c cs hne.2.1 hne.2.2.1, hvb]
    simp only [finishParse]
    rw [if_neg (show ¬(vb < 2 ^ 63) by omega)]
    rfl
  have hint : interruptFromStr (String.mk (c :: cs)) = none :=
    interruptFromStr_none_of_noX _ (fun hm => (isDigit_ne (hall 'X' hm)).2.2.2.2 rfl)
  have hq : hasQuotedMatch (String.mk (c :: cs)) = false :=
    quoteRun_eq_false _ (fun c' hm => (isDigit_ne (hall c' hm)).2.2.2.1)
  have hid : isIdentChars (c :: cs) = true := by
    simp only [isIdentChars, Bool.and_eq_true, List.all_eq_true]
    exact ⟨by simp, fun c' hm => isWordChar_of_isDigit (hall c' hm)⟩
  unfold classifyValue
  rw [hdec, data_mk, hrm, hhex, hint, hq, hid, h5]
  rfl

end CoreIsa

namespace CoreIsa

/-! ### Claim C1: alias resolution -/

/-- C1 counterexample: on the claim's own input `[A = B, B = C, C = 5]`
the program leaves `A` present (not absent) with `Integer 11` and gives
`B` the value `Integer 12` (not `Integer 5`), with no diagnostics: the
prefix-free hex fallback parses the single letters `B` and `C` as
hexadecimal literals before the identifier branch is ever reached. -/
theorem c1_counterexample :
    lookupTbl (parseDefines .Esp32s2 ["#define A B", "#define B C", "#define C 5"]).map "A"
        = some (.Integer 11) ∧
      lookupTbl (parseDefines .Esp32s2 ["#define A B", "#define B C", "#define C 5"]).map "B"
        = some (.Integer 12) ∧
      (parseDefines .Esp32s2 ["#define A B", "#define B C", "#define C 5"]).diags = [] := by
  decide

/-- C1 amended: alias resolution is single-pass with immediate lookup,
not two-pass.  On `[A = B, B = C, C = 5]` the hex fallback turns `B` and
`C` into integers (11 and 12).  With hex-free names, a chain
`[G = H, H = I, I = 5]` drops both `G` and `H` (each with a diagnostic
naming both sides) because forward references never resolve, while the
backward ordering `[I = 5, H = I, G = H]` resolves fully — even
transitively. -/
theorem c1_single_pass_alias_resolution :
    parseDefines .Esp32s2 ["#define A B", "#define B C", "#define C 5"]
        = ⟨[("A", .Integer 11), ("B", .Integer 12), ("C", .Integer 5)], []⟩ ∧
      parseDefines .Esp32s2 ["#define G H", "#define H I", "#define I 5"]
        = ⟨[("I", .Integer 5)],
           [.unableToProcess "G" "H", .unableToProcess "H" "I"]⟩ ∧
      parseDefines .Esp32s2 ["#define I 5", "#define H I", "#define G H"]
        = ⟨[("I", .Integer 5), ("H", .Integer 5), ("G", .Integer 5)], []⟩ := by
  decide

/-! ### Claim C4: hexadecimal prefix handling -/

/-- C4 counterexample: the uppercase-prefixed literal `0X1F` is not
classified as `Integer 31`; only the lowercase substring `0x` is deleted
before the radix-16 parse, so `0X1F` is unrecognized (it falls to the
identifier branch and is not in the table). -/
theorem c4_counterexample :
    classifyValue [] "0X1F" = .unrecognized ∧
      classifyValue [] "0X1F" ≠ .resolved (.Integer 31) := by
  decide

/-- C4 amended: only the lowercase `0x` prefix is recognized: for every
string `0x` + hex digits (one or more) whose radix-16 parse fits in
`i64`, classification yields the parsed integer, whatever the table. -/
theorem c4_lowercase_hex_integer (m : List (String × Value)) (ds : List Char) (n : Int)
    (_h1 : ds ≠ []) (h2 : ∀ c ∈ ds, (hexDigit c).isSome)
    (h3 : i64FromStrRadix16 (String.mk ds) = some n) :
    classifyValue m (String.mk ('0' :: 'x' :: ds)) = .resolved (.Integer n) := by
  have hx : ∀ c ∈ ds, c ≠ 'x' := fun c hm => (hexDigit_ne (h2 c hm)).2.2
  have hdec : parseI64Dec (String.mk ('0' :: 'x' :: ds)) = none := parseI64Dec_0x ds
  have hrm : remove0x ('0' :: 'x' :: ds) = ds := remove0x_eq_self ds hx
  unfold classifyValue
  rw [hdec, data_mk, hrm, h3]

/-- C4 witness: `0x1F` classifies to `Integer 31`. -/
theorem c4_witness :
    (∀ c ∈ ['1', 'F'], (hexDigit c).isSome) ∧
      i64FromStrRadix16 (String.mk ['1', 'F']) = some 31 ∧
      classifyValue [] (String.mk ('0' :: 'x' :: ['1', 'F'])) = .resolved (.Integer 31) :=
  ⟨by decide, by decide,
    c4_lowercase_hex_integer [] ['1', 'F'] 31 (by decide) (by decide) (by decide)⟩

/-! ### Claim C9: hex classification without a prefix -/

/-- C9: hex classification needs no `0x` prefix — any value text failing
the decimal parse whose text, after deleting every lowercase `0x`, is a
nonempty hex-digit string with value below `2^63`, classifies to that
integer, taking priority over the identifier branch. -/
theorem c9_bare_hex_integer (m : List (String × Value)) (s : String) (v : Nat)
    (h0 : parseI64Dec s = none)
    (h1 : remove0x s.data ≠ [])
    (h2 : ∀ c ∈ remove0x s.data, (hexDigit c).isSome)
    (h3 : digitsValAux hexDigit 16 0 (remove0x s.data) = some v)
    (h4 : v < 2 ^ 63) :
    classifyValue m s = .resolved (.Integer v) := by
  obtain ⟨c, cs, hcons⟩ := List.exists_cons_of_ne_nil h1
  have hc : (hexDigit c).isSome := h2 c (by rw [hcons]; simp)
  have hne := hexDigit_ne hc
  have hhex : i64FromStrRadix16 (String.mk (remove0x s.data)) = some (v : Int) := by
    rw [i64FromStrRadix16_mk, hcons, parseSigned_head_nonsign hexDigit 16 c cs hne.1 hne.2.1,
      ← hcons, h3]
    simp only [finishParse]
    rw [if_pos h4]
    rfl
  unfold classifyValue
  rw [h0, hhex]

/-- C9 witness: on a table in which `BEEF` is bound to a string, the text
`BEEF` still classifies as `Integer 48879`, not as the alias. -/
theorem c9_witness :
    parseI64Dec "BEEF" = none ∧
      lookupTbl [("BEEF", Value.String "x")] "BEEF" = some (.String "x") ∧
      classifyValue [("BEEF", Value.String "x")] "BEEF" = .resolved (.Integer 48879) :=
  ⟨by decide, by decide,
    c9_bare_hex_integer [("BEEF", Value.String "x")] "BEEF" 48879 (by decide) (by decide)
      (by decide) (by decide) (by decide)⟩

end CoreIsa

namespace CoreIsa

/-! ### Claim C5: decimal overflow -/

/-- C5 counterexample: the claim fails on two counts.  On the legacy
ESP32 variant an overflowing decimal definition is dropped silently — no
diagnostic at all — contradicting "reported via a diagnostic rather than
silently dropped".  And the define pattern accepts all-digit
identifiers, so once `99999999999999999999` is itself defined, a later
definition whose value text is that overflowing digit string does not
fail classification: the identifier branch resolves it and stores
`BAR = Integer 5`. -/
theorem c5_counterexample :
    parseDefines .Esp32 ["#define FOO 99999999999999999999"] = ⟨[], []⟩ ∧
      parseDefines .Esp32s2
          ["#define 99999999999999999999 5", "#define BAR 99999999999999999999"]
        = ⟨[("99999999999999999999", .Integer 5), ("BAR", .Integer 5)], []⟩ := by
  decide

/-- C5 amended: a pure decimal digit string whose value is at least
`2^63`, provided the digit string is not itself a key of the table
(all-digit identifiers are accepted by the define pattern, and an
existing key is resolved by the identifier branch and stored), fails
classification and is not stored; the diagnostic naming the identifier
and the raw text is emitted only when the variant is not ESP32 and the
identifier is not `XCHAL_USE_MEMCTL` — otherwise the definition is
dropped silently. -/
theorem c5_overflow_reported_except_esp32 (chip : Chip) (st : ParseState) (ident : String)
    (ds : List Char) (v : Nat)
    (hchip : chip ≠ .Esp32) (hident : ident ≠ "XCHAL_USE_MEMCTL")
    (h1 : ds ≠ []) (h2 : ∀ c ∈ ds, (decDigit c).isSome)
    (h3 : digitsValAux decDigit 10 0 ds = some v) (h4 : 2 ^ 63 ≤ v)
    (h5 : lookupTbl st.map (String.mk ds) = none) :
    processDefine chip st ident (String.mk ds)
      = ⟨st.map, st.diags ++ [.unableToProcess ident (String.mk ds)]⟩ := by
  unfold processDefine
  rw [classify_overflow st.map ds v h1 h2 h3 h4 h5, if_pos ⟨hchip, hident⟩]

/-- C5 witness: `99999999999999999999` overflows `i64`; on a non-ESP32
variant its definition leaves the table unchanged and emits the
diagnostic. -/
theorem c5_witness :
    digitsValAux decDigit 10 0 "99999999999999999999".data = some 99999999999999999999 ∧
      processDefine .Esp32s2 ⟨[], []⟩ "FOO" (String.mk "99999999999999999999".data)
        = ⟨[], [.unableToProcess "FOO" (String.mk "99999999999999999999".data)]⟩ :=
  ⟨by decide,
    c5_overflow_reported_except_esp32 .Esp32s2 ⟨[], []⟩ "FOO" "99999999999999999999".data
      99999999999999999999 (by decide) (by decide) (by decide) (by decide) (by decide)
      (by decide) (by decide)⟩

/-! ### Claim C6: unrecognized value literals -/

/-- C6 counterexample: for the ESP32 variant — and, on any variant, for
the identifier `XCHAL_USE_MEMCTL` — an unrecognized value text is dropped
with no diagnostic, contradicting "for every variant and every
identifier". -/
theorem c6_counterexample :
    processLine .Esp32 ⟨[], []⟩ "#define FOO ???" = ⟨[], []⟩ ∧
      processLine .Esp32s2 ⟨[], []⟩ "#define XCHAL_USE_MEMCTL ???" = ⟨[], []⟩ := by
  decide

/-- C6 amended: for every variant other than ESP32 and every identifier
other than `XCHAL_USE_MEMCTL`, an unrecognized value text leaves the
table unchanged and logs a diagnostic carrying both the identifier and
the raw value text; for ESP32, or for that identifier, the entry is
omitted silently. -/
theorem c6_unrecognized_logged_except_esp32 (chip : Chip) (st : ParseState)
    (ident value : String)
    (hchip : chip ≠ .Esp32) (hident : ident ≠ "XCHAL_USE_MEMCTL")
    (hcl : classifyValue st.map value = .unrecognized) :
    processDefine chip st ident value
      = ⟨st.map, st.diags ++ [.unableToProcess ident value]⟩ := by
  unfold processDefine
  rw [hcl, if_pos ⟨hchip, hident⟩]

/-- C6 witness: `???` is unrecognized and, on a non-ESP32 variant, logged
with identifier and raw text. -/
theorem c6_witness :
    classifyValue [] "???" = .unrecognized ∧
      processDefine .Esp32s2 ⟨[], []⟩ "FOO" "???" = ⟨[], [.unableToProcess "FOO" "???"]⟩ :=
  ⟨by decide,
    c6_unrecognized_logged_except_esp32 .Esp32s2 ⟨[], []⟩ "FOO" "???" (by decide) (by decide)
      (by decide)⟩

/-! ### Claim C7: end-to-end example -/

/-- C7 counterexample: running the claim's five-line input on the ESP32
variant yields zero diagnostics, not "exactly one diagnostic (for BAD)":
the `Unable to process` diagnostic is suppressed for ESP32. -/
theorem c7_counterexample :
    (parseDefines .Esp32 ["#define FOO 10", "#define BAR 0x1F", "#define BAZ FOO",
        "#define QUX XTHAL_INTTYPE_NMI", "#define BAD ???"]).diags = [] := by
  decide

/-- C7 amended: on every variant the five-line input yields exactly the
table `{FOO: 10, BAR: 31, BAZ: 10, QUX: Nmi}`; the single diagnostic for
`BAD` appears on every variant except ESP32, where it is suppressed. -/
theorem c7_end_to_end (chip : Chip) :
    parseDefines chip ["#define FOO 10", "#define BAR 0x1F", "#define BAZ FOO",
        "#define QUX XTHAL_INTTYPE_NMI", "#define BAD ???"]
      = ⟨[("FOO", .Integer 10), ("BAR", .Integer 31), ("BAZ", .Integer 10),
          ("QUX", .Interrupt .Nmi)],
         if chip = .Esp32 then [] else [.unableToProcess "BAD" "???"]⟩ := by
  cases chip <;> decide

/-! ### Claim C8: stored values are final typed values -/

/-- C8: every value stored in a built symbol table is a final typed value
— `Integer`, `Interrupt` or `String` — for every variant and every input
line sequence; no entry holds an unresolved identifier reference (the
value type has no such shape, and alias lines either copy an
already-typed value or are dropped). -/
theorem c8_table_values_typed (chip : Chip) (lines : List String) (k : String) (v : Value)
    (h : lookupTbl (parseDefines chip lines).map k = some v) :
    (∃ n, v = Value.Integer n) ∨ (∃ t, v = Value.Interrupt t) ∨ (∃ s, v = Value.String s) := by
  cases v with
  | Integer n => exact Or.inl ⟨n, rfl⟩
  | Interrupt t => exact Or.inr (Or.inl ⟨t, rfl⟩)
  | String s => exact Or.inr (Or.inr ⟨s, rfl⟩)

/-- C8 witness: a concrete table entry, shown to be a typed value. -/
theorem c8_witness :
    lookupTbl (parseDefines .Esp32s2 ["#define FOO 1"]).map "FOO" = some (.Integer 1) ∧
      ((∃ n, Value.Integer 1 = Value.Integer n) ∨ (∃ t, Value.Integer 1 = Value.Interrupt t)
        ∨ (∃ s, Value.Integer 1 = Value.String s)) :=
  ⟨by decide, c8_table_values_typed .Esp32s2 ["#define FOO 1"] "FOO" (.Integer 1) (by decide)⟩

/-! ### Claim C10: the corrector's frame -/

/-- C10: when the four required identifiers are present as integers, the
corrector succeeds and modifies only `XCHAL_USE_MEMCTL`: every other key
maps to exactly the value it had before. -/
theorem c10_corrector_frame (m : List (String × Value)) (a b c d : Int)
    (h1 : lookupTbl m "XCHAL_LOOP_BUFFER_SIZE" = some (.Integer a))
    (h2 : lookupTbl m "XCHAL_DCACHE_IS_COHERENT" = some (.Integer b))
    (h3 : lookupTbl m "XCHAL_HAVE_ICACHE_DYN_WAYS" = some (.Integer c))
    (h4 : lookupTbl m "XCHAL_HAVE_DCACHE_DYN_WAYS" = some (.Integer d)) :
    ∃ m', fixEsp32XchalUseMemctl m = some m' ∧
      ∀ k, k ≠ "XCHAL_USE_MEMCTL" → lookupTbl m' k = lookupTbl m k := by
  refine ⟨insertAssoc m "XCHAL_USE_MEMCTL"
    (.Integer (if a > 0 ∨ b ≠ 0 ∨ c ≠ 0 ∨ d ≠ 0 then 1 else 0)), ?_, ?_⟩
  · unfold fixEsp32XchalUseMemctl
    rw [h1, h2, h3, h4]
  · intro k hk
    exact lookupTbl_insertAssoc_ne m "XCHAL_USE_MEMCTL" k _ hk

/-- C10 witness: the derived-flag scenario table (with an extra unrelated
entry), on which the corrector succeeds and the frame holds. -/
theorem c10_witness :
    lookupTbl [("XCHAL_LOOP_BUFFER_SIZE", Value.Integer 0),
        ("XCHAL_DCACHE_IS_COHERENT", Value.Integer 0),
        ("XCHAL_HAVE_ICACHE_DYN_WAYS", Value.Integer 1),
        ("XCHAL_HAVE_DCACHE_DYN_WAYS", Value.Integer 0),
        ("OTHER", Value.Integer 7)] "XCHAL_HAVE_ICACHE_DYN_WAYS" = some (.Integer 1) ∧
      (∃ m', fixEsp32XchalUseMemctl [("XCHAL_LOOP_BUFFER_SIZE", Value.Integer 0),
          ("XCHAL_DCACHE_IS_COHERENT", Value.Integer 0),
          ("XCHAL_HAVE_ICACHE_DYN_WAYS", Value.Integer 1),
          ("XCHAL_HAVE_DCACHE_DYN_WAYS", Value.Integer 0),
          ("OTHER", Value.Integer 7)] = some m' ∧
        ∀ k, k ≠ "XCHAL_USE_MEMCTL" →
          lookupTbl m' k = lookupTbl [("XCHAL_LOOP_BUFFER_SIZE", Value.Integer 0),
            ("XCHAL_DCACHE_IS_COHERENT", Value.Integer 0),
            ("XCHAL_HAVE_ICACHE_DYN_WAYS", Value.Integer 1),
            ("XCHAL_HAVE_DCACHE_DYN_WAYS", Value.Integer 0),
            ("OTHER", Value.Integer 7)] k) :=
  ⟨by decide,
    c10_corrector_frame [("XCHAL_LOOP_BUFFER_SIZE", Value.Integer 0),
      ("XCHAL_DCACHE_IS_COHERENT", Value.Integer 0),
      ("XCHAL_HAVE_ICACHE_DYN_WAYS", Value.Integer 1),
      ("XCHAL_HAVE_DCACHE_DYN_WAYS", Value.Integer 0),
      ("OTHER", Value.Integer 7)] 0 0 1 0 (by decide) (by decide) (by decide) (by decide)⟩

end CoreIsa

namespace CoreIsa

/-! ### Claim C2: missing corrector inputs -/

/-- C2 counterexample: when the ESP32 header lacks the four corrector
inputs, the corrector's unwrap panics and the whole program aborts: the
remaining variants — whose text sources are fine — are never processed
(the result list is empty), contradicting "processing continues with the
remaining variants". -/
theorem c2_counterexample :
    linesProviderMissingInputs .Esp32s2 = .ok [] ∧
      mainModel linesProviderMissingInputs = ([], some (.panicMissing .Esp32)) :=
  ⟨rfl, rfl⟩

/-- C2 amended: when any of the corrector's four required identifiers is
absent from the ESP32 table, the corrector panics and the panic aborts
the entire program: the ESP32 run produces nothing and no remaining
variant is attempted. -/
theorem c2_missing_input_aborts_program (g : Chip → Except Unit (List String))
    (lines : List String)
    (hg : g .Esp32 = .ok lines)
    (hmiss : lookupTbl (parseDefines .Esp32 lines).map "XCHAL_LOOP_BUFFER_SIZE" = none
      ∨ lookupTbl (parseDefines .Esp32 lines).map "XCHAL_DCACHE_IS_COHERENT" = none
      ∨ lookupTbl (parseDefines .Esp32 lines).map "XCHAL_HAVE_ICACHE_DYN_WAYS" = none
      ∨ lookupTbl (parseDefines .Esp32 lines).map "XCHAL_HAVE_DCACHE_DYN_WAYS" = none) :
    mainModel g = ([], some (.panicMissing .Esp32)) := by
  have hfix := fix_none_of_missing _ hmiss
  have hrun : runChip g .Esp32 = .error (.panicMissing .Esp32) := by
    unfold runChip
    rw [hg]
    simp [hfix]
  show mainLoop g chipIter = _
  unfold chipIter mainLoop
  rw [hrun]

/-- C2 witness: a provider whose ESP32 header is `["#define FOO 1"]`
(no corrector inputs) while the others read fine. -/
theorem c2_witness :
    linesProviderMissingInputs .Esp32 = .ok ["#define FOO 1"] ∧
      lookupTbl (parseDefines .Esp32 ["#define FOO 1"]).map "XCHAL_LOOP_BUFFER_SIZE" = none ∧
      mainModel linesProviderMissingInputs = ([], some (.panicMissing .Esp32)) :=
  ⟨rfl, by decide,
    c2_missing_input_aborts_program linesProviderMissingInputs ["#define FOO 1"] rfl
      (Or.inl (by decide))⟩

/-! ### Claim C3: the orchestrator on failures -/

/-- C3 counterexample: a text-source failure on the first variant stops
the whole run: the remaining variants, whose sources are fine, are not
attempted (the result list is empty), contradicting "the orchestrator
still attempts all remaining variants". -/
theorem c3_counterexample :
    linesProviderIoFailure .Esp32s2 = .ok [] ∧
      mainModel linesProviderIoFailure = ([], some (.ioError .Esp32)) :=
  ⟨rfl, rfl⟩

/-- C3 amended: processing stops at the first failing variant: variants
before it are processed normally, the failing variant's error is
reported, and no variant after it is attempted. -/
theorem c3_first_failure_stops_run (g : Chip → Except Unit (List String))
    (cs1 : List Chip) (c : Chip) (cs2 : List Chip) (e : RunError)
    (hok : ∀ c' ∈ cs1, ∃ m, runChip g c' = .ok m)
    (herr : runChip g c = .error e) :
    mainLoop g (cs1 ++ c :: cs2) = (cs1.map fun c' => (c', chipTable g c'), some e) := by
  induction cs1 with
  | nil =>
    simp only [List.nil_append, List.map_nil]
    unfold mainLoop
    rw [herr]
  | cons a as ih =>
    obtain ⟨m, hm⟩ := hok a (by simp)
    have ih' := ih (fun c' hmem => hok c' (by simp [hmem]))
    simp only [List.cons_append, List.map_cons]
    unfold mainLoop
    rw [hm, ih']
    simp [chipTable, hm]

/-- C3 witness: ESP32's read fails at the head of the chip list; the
three remaining chips (all readable) are not attempted. -/
theorem c3_witness :
    runChip linesProviderIoFailure .Esp32 = .error (.ioError .Esp32) ∧
      mainLoop linesProviderIoFailure ([] ++ .Esp32 :: [.Esp32s2, .Esp32s3, .Esp8266])
        = (([] : List Chip).map (fun c' => (c', chipTable linesProviderIoFailure c')),
           some (.ioError .Esp32)) :=
  ⟨rfl,
    c3_first_failure_stops_run linesProviderIoFailure [] .Esp32 [.Esp32s2, .Esp32s3, .Esp8266]
      (.ioError .Esp32) (by simp) rfl⟩

end CoreIsa
